import Mathlib

/-!
# Verification of `realm-profiler` (`profiler.go`)

A shallow embedding of the Go program `profiler.go` from the
`kristovatlas/realm-profiler` repository, together with theorems settling the
specification claims about it.

Conventions used throughout:

* Time instants and durations are modelled as `Nat` nanoseconds (the Go
  `time.Time` monotonic reading and `time.Duration` are nanosecond counts);
  `time.Since t = now - t` and `time.Second = 10^9` ns.
* The global pseudo-random source `math/rand` is modelled as an oracle
  `Nat → Nat` together with a cursor: each `rand.Intn n` call consumes one
  oracle value and reduces it `% n`.
* The external process executor (`os/exec`) is modelled by the process
  descriptor it is asked to run (`OsCmd`), plus a latency oracle
  `String → Nat` giving the wall-clock time each command takes.
* File-system effects of `saveLogs` are modelled by an error-injection
  oracle (`IoOracle`) and the list of CSV records that end up in the file.
-/

set_option autoImplicit false

namespace RealmProfiler

/-! ## Constants (profiler.go lines 19–26) -/

def gasFee : Nat := 10000000

def gasWanted : Nat := 800000

def csvFile : String := "pc_profiler.csv"

def MaxPackageLength : Nat := 20

def BalanceQuery : String :=
  "gnokey query bank/balances/g1jg8mtutu9khhfwc4nxmuhcpftf0pajdhfvsqf5"

def DefaultChainId : String := "dev"

/-- One second in nanoseconds (`time.Second`). -/
def oneSecond : Nat := 1000000000

/-! ## Random identifier generation (profiler.go lines 311–318) -/

/-- Model of the global `math/rand` source: an oracle of raw values and a
cursor marking the next unconsumed value. -/
structure Rng where
  oracle : Nat → Nat
  idx : Nat

/-- Model of `rand.Intn n`: consume one oracle value, reduced `% n` so the
result lies in `[0, n)` as `Intn` guarantees. -/
def randIntn (n : Nat) (r : Rng) : Nat × Rng :=
  (r.oracle r.idx % n, { r with idx := r.idx + 1 })

/-- The alphabet used by `randomString` (`const charset = "abc...z"`). -/
def charset : String := "abcdefghijklmnopqrstuvwxyz"

/-- The character loop of `randomString`: `b[i] = charset[rand.Intn(len(charset))]`
for each position in order. -/
def randomStringChars : Nat → Rng → List Char × Rng
  | 0, r => ([], r)
  | n + 1, r =>
    let p := randIntn charset.length r
    let q := randomStringChars n p.2
    (charset.data.getD p.1 'a' :: q.1, q.2)

/-- `randomString(length)`: builds a string of `length` characters drawn from
`charset` using the shared random source. -/
def randomString (length : Nat) (r : Rng) : String × Rng :=
  let p := randomStringChars length r
  (String.mk p.1, p.2)

/-! ## Command generation (profiler.go lines 235–267) -/

/-- The `addpkg` command string produced by `generateCommand`
(`fmt.Sprintf` at profiler.go lines 245–250). -/
def addpkgCmdStr (packageName pkgDir chainID remote keyName : String) : String :=
  "gnokey maketx addpkg --pkgpath \x27gno.land/r/" ++ packageName ++
  "\x27 --pkgdir " ++ pkgDir ++
  " --gas-fee " ++ toString gasFee ++ "ugnot --gas-wanted " ++ toString gasWanted ++
  " --broadcast --chainid " ++ chainID ++ " --remote " ++ remote ++
  " --insecure-password-stdin=true " ++ keyName

/-- The `call` command string produced by `generateCommand`
(`fmt.Sprintf` at profiler.go lines 254–259). -/
def callCmdStr (packageName functionName chainID remote keyName : String) : String :=
  "gnokey maketx call --pkgpath \x27gno.land/r/" ++ packageName ++
  "\x27 --func " ++ functionName ++
  " --gas-fee " ++ toString gasFee ++ "ugnot --gas-wanted " ++ toString gasWanted ++
  " --broadcast --chainid " ++ chainID ++ " --remote " ++ remote ++
  " --insecure-password-stdin=true " ++ keyName

/-- The `qrender` command string produced by `generateCommand`
(`fmt.Sprintf` at profiler.go line 264). -/
def qrenderCmdStr (packageName remote : String) : String :=
  "gnokey query vm/qrender --data \x27" ++ packageName ++ ":\x27 --remote " ++ remote

/-- `generateCommand`: defaults an empty `packageName` to a fresh random
20-character identifier and an empty `functionName` to `"Main"`, then
dispatches on the mode. The two `panic` branches of the Go switch are
modelled by `Except.error` carrying the panic message. -/
def generateCommand (mode packageName functionName remote keyName pkgDir chainID : String)
    (r : Rng) : Except String String × Rng :=
  let pr := if packageName = "" then randomString MaxPackageLength r else (packageName, r)
  let packageName := pr.1
  let r := pr.2
  let functionName := if functionName = "" then "Main" else functionName
  match mode with
  | "addpkg" => (Except.ok (addpkgCmdStr packageName pkgDir chainID remote keyName), r)
  | "addpkg+call" =>
      (Except.error "Programming error: addpkg+call should be 2 separate calls to generateCommand.", r)
  | "call" => (Except.ok (callCmdStr packageName functionName chainID remote keyName), r)
  | "balanceQuery" => (Except.ok BalanceQuery, r)
  | "qrender" => (Except.ok (qrenderCmdStr packageName remote), r)
  | _ => (Except.error "Invalid mode", r)

/-! ## External command execution (profiler.go lines 269–292) -/

/-- The process descriptor built by `executeCommand`: the program and
arguments of `exec.Command("bash", "-c", command)` and the data supplied on
the standard input of the child. Captured stdout/stderr and the exit status come
from the external process and are outside the model. -/
structure OsCmd where
  prog : String
  args : List String
  stdinData : String
deriving DecidableEq, Repr

/-- `executeCommand`: runs `bash -c command`; a non-empty password is piped
to stdin followed by a newline, an empty password still sends a lone
newline (profiler.go lines 273–277). -/
def executeCommand (command password : String) : OsCmd :=
  { prog := "bash"
    args := ["-c", command]
    stdinData := if password ≠ "" then password ++ "\n" else "\n" }

/-! ## Per-worker rate throttle (profiler.go lines 170–185) -/

/-- The throttle state a worker keeps across loop iterations:
`queryCount` operations counted in the current window, `lastQueryTime` the
window-start instant (ns). -/
structure ThrottleState where
  queryCount : Nat
  lastQueryTime : Nat
deriving DecidableEq, Repr

/-- Outcome of one pass through the throttle logic at the head of the worker
loop: either the operation proceeds (with the updated state), or the worker
sleeps until `wakeTime` and re-enters the loop (`continue`). -/
inductive ThrottleOutcome where
  | proceed (s : ThrottleState)
  | wait (s : ThrottleState) (wakeTime : Nat)
deriving DecidableEq, Repr

/-- One pass through the throttle logic of `executeTask` at instant `now`:
reset the window if a second has elapsed (`time.Since(lastQueryTime) >=
time.Second`), then either sleep until `lastQueryTime + time.Second` when the
window is full (`queryCount >= maxQPS`) or increment the count and proceed. -/
def throttleCheck (maxQPS : Nat) (s : ThrottleState) (now : Nat) : ThrottleOutcome :=
  let s1 := if oneSecond ≤ now - s.lastQueryTime then ⟨0, now⟩ else s
  if maxQPS ≤ s1.queryCount then
    ThrottleOutcome.wait s1 (s1.lastQueryTime + oneSecond)
  else
    ThrottleOutcome.proceed ⟨s1.queryCount + 1, s1.lastQueryTime⟩

/-- Run the per-worker throttle over a sequence of loop-head instants, recording
for every operation that proceeds the pair `(initiation time, window start)`. -/
def runThrottle (maxQPS : Nat) : ThrottleState → List Nat → List (Nat × Nat)
  | _, [] => []
  | s, now :: rest =>
    match throttleCheck maxQPS s now with
    | ThrottleOutcome.proceed s1 => (now, s1.lastQueryTime) :: runThrottle maxQPS s1 rest
    | ThrottleOutcome.wait s1 _ => runThrottle maxQPS s1 rest

/-- Number of recorded operations whose window start is `w`. -/
def countWindow (w : Nat) (ops : List (Nat × Nat)) : Nat :=
  (ops.filter (fun p => p.2 = w)).length

/-! ## One worker-loop cycle (profiler.go lines 187–231)

The loop body of `executeTask` after the throttle: build the command(s), execute
them, append one `ExecutionLog` sample. -/

/-- One recorded sample (`type ExecutionLog struct`): the completion instant
(`time.Now()` at the append) and the elapsed `time.Since(start)`, both in ns. -/
structure ExecutionLog where
  Timestamp : Nat
  ResponseTime : Nat
deriving DecidableEq, Repr

/-- Everything one pass of the loop body produces: the package name shared by
the command(s) of the cycle, the generated command(s), the single sample appended
to the log, the value of the `packageName` variable for the next iteration, the
random source afterwards, and the instant at which the cycle finished. -/
structure CycleResult where
  name : String
  cmd1 : Except String String
  cmd2 : Option (Except String String)
  sample : ExecutionLog
  nextPackageName : String
  rng : Rng
  endTime : Nat

/-- One pass of the loop body of `executeTask` at instant `now` (the throttle has
already admitted the operation). `latency` gives the elapsed wall time of
each external command. Mirrors profiler.go lines 187–231: in `addpkg+call` mode
the first leg runs as `addpkg` with a package name generated once when empty,
the second leg runs as `call` with the same name, and `packageName` is reset
to `""` afterwards; `start` is taken before the first command and `duration`
after the second, and one sample is appended. -/
def executeTaskCycle (mode packageName functionName remote keyName pkgDir chainID : String)
    (r : Rng) (latency : String → Nat) (now : Nat) : CycleResult :=
  let composite := mode = "addpkg+call"
  let firstMode := if composite then "addpkg" else mode
  let pr := if composite ∧ packageName = "" then randomString MaxPackageLength r
            else (packageName, r)
  let pn := pr.1
  let r1 := pr.2
  let g1 := generateCommand firstMode pn functionName remote keyName pkgDir chainID r1
  let cmd1 := g1.1
  let r2 := g1.2
  let start := now
  let t1 := now + latency (cmd1.toOption.getD "")
  if composite then
    let g2 := generateCommand "call" pn functionName remote keyName pkgDir chainID r2
    let cmd2 := g2.1
    let r3 := g2.2
    let t2 := t1 + latency (cmd2.toOption.getD "")
    { name := pn
      cmd1 := cmd1
      cmd2 := some cmd2
      sample := { Timestamp := t2, ResponseTime := t2 - start }
      nextPackageName := ""
      rng := r3
      endTime := t2 }
  else
    { name := pn
      cmd1 := cmd1
      cmd2 := none
      sample := { Timestamp := t1, ResponseTime := t1 - start }
      nextPackageName := packageName
      rng := r2
      endTime := t1 }

/-- The package names used by `n` successive cycles of `executeTask`, threading
`packageName`, the random source and the clock exactly as the worker loop
does. -/
def cycleNames (mode packageName functionName remote keyName pkgDir chainID : String)
    (r : Rng) (latency : String → Nat) (now : Nat) : Nat → List String
  | 0 => []
  | n + 1 =>
    let c := executeTaskCycle mode packageName functionName remote keyName pkgDir chainID
      r latency now
    c.name :: cycleNames mode c.nextPackageName functionName remote keyName pkgDir chainID
      c.rng latency c.endTime n

/-! ## Log persistence (profiler.go lines 294–309)

`saveLogs` opens `pc_profiler.csv` with `os.Create` (truncating any previous
content), writes the header record, then one record per sample via
`encoding/csv`. The stdlib pieces it calls are modelled here:
`time.Time.Format(time.RFC3339)` for a UTC process (zero-padded calendar
fields joined by the RFC 3339 punctuation, `Z` offset) and
`fmt.Sprintf("%f", d.Seconds())` (the duration in seconds, printed with six
fractional digits, i.e. at microsecond precision). -/

/-- Left-pad the decimal representation of `n` with zeros to `width` digits
(how the Go `Format` call prints calendar fields). -/
def padNum (width n : Nat) : String :=
  let s := toString n
  String.mk (List.replicate (width - s.length) '0') ++ s

/-- Civil (proleptic Gregorian) date of a day count since 1970-01-01,
the standard era-based conversion performed inside `time.Time.Format`. -/
def civilFromDays (days : Nat) : Nat × Nat × Nat :=
  let z := days + 719468
  let era := z / 146097
  let doe := z % 146097
  let yoe := (doe - doe / 1460 + doe / 36524 - doe / 146096) / 365
  let y := yoe + era * 400
  let doy := doe - (365 * yoe + yoe / 4 - yoe / 100)
  let mp := (5 * doy + 2) / 153
  let d := doy - (153 * mp + 2) / 5 + 1
  let m := if mp < 10 then mp + 3 else mp - 9
  (if m ≤ 2 then y + 1 else y, m, d)

/-- Model of `t.Format(time.RFC3339)` for an instant `t` given as
nanoseconds since the Unix epoch, in UTC. -/
def rfc3339 (ns : Nat) : String :=
  let secs := ns / oneSecond
  let days := secs / 86400
  let sod := secs % 86400
  let ymd := civilFromDays days
  padNum 4 ymd.1 ++ "-" ++ padNum 2 ymd.2.1 ++ "-" ++ padNum 2 ymd.2.2 ++
  "T" ++ padNum 2 (sod / 3600) ++ ":" ++ padNum 2 (sod % 3600 / 60) ++
  ":" ++ padNum 2 (sod % 60) ++ "Z"

/-- Model of `fmt.Sprintf("%f", d.Seconds())` for a duration of `ns`
nanoseconds: the value in seconds with six digits after the decimal point
(rounding the exact value to microseconds). -/
def fmtSeconds (ns : Nat) : String :=
  let micros := (ns + 500) / 1000
  toString (micros / 1000000) ++ "." ++ padNum 6 (micros % 1000000)

/-- The CSV record `saveLogs` writes for one sample
(profiler.go line 306). -/
def sampleRecord (l : ExecutionLog) : List String :=
  [rfc3339 l.Timestamp, fmtSeconds l.ResponseTime]

/-- Error injection for the file-system calls `saveLogs` makes:
whether `os.Create` fails, and whether the `i`-th underlying write fails
(`encoding/csv` keeps a sticky error: once an underlying write has failed,
nothing further reaches the file). -/
structure IoOracle where
  createFails : Bool
  writeFails : Nat → Bool

/-- The oracle of an error-free run. -/
def ioOk : IoOracle :=
  { createFails := false, writeFails := fun _ => false }

/-- What one call to `saveLogs` produced: the diagnostics printed to
standard output, the records present in `pc_profiler.csv` (`none` when the
file could not be created), the records the routine attempted to write, and
whether the routine returned normally to its caller. -/
structure SaveResult where
  printed : List String
  file : Option (List (List String))
  attempted : List (List String)
  returned : Bool
deriving Repr

/-- Records that actually reach the file: the prefix of the attempted
records before the first failing write (the sticky error of the csv writer drops
everything after it). -/
def keptRecords (o : IoOracle) : Nat → List (List String) → List (List String)
  | _, [] => []
  | i, rec :: rest =>
    if o.writeFails i then [] else rec :: keptRecords o (i + 1) rest

/-- `saveLogs`: create (truncate) `pc_profiler.csv`; on failure print
`"Failed to create CSV file:"` and return; otherwise write the header record
`["Timestamp", "ResponseTime"]` followed by one record per sample, flushing
as it goes, and return. Write errors are not inspected anywhere in the
routine, so they produce no diagnostics. -/
def saveLogs (o : IoOracle) (logs : List ExecutionLog) : SaveResult :=
  if o.createFails then
    { printed := ["Failed to create CSV file:"]
      file := none
      attempted := []
      returned := true }
  else
    let recs := ["Timestamp", "ResponseTime"] :: logs.map sampleRecord
    { printed := []
      file := some (keptRecords o 0 recs)
      attempted := recs
      returned := true }

/-- The durable store, as the map from file name to records: `saveLogs`
always targets the fixed name `csvFile`, and `os.Create` truncates, so a
successful flush replaces the whole previous content. -/
def applyFlush (store : String → Option (List (List String)))
    (o : IoOracle) (logs : List ExecutionLog) : String → Option (List (List String)) :=
  fun name =>
    if name = csvFile then
      match (saveLogs o logs).file with
      | some recs => some recs
      | none => store name
    else store name

/-- A sequence of flushes applied in order to the store. -/
def applyFlushes (store : String → Option (List (List String))) :
    List (IoOracle × List ExecutionLog) → String → Option (List (List String))
  | [] => store
  | f :: rest => applyFlushes (applyFlush store f.1 f.2) rest

/-! ## Worker pool (profiler.go lines 136–167)

`main` makes a buffered channel `sem` of capacity `maxThreads`, then loops
forever: send on `sem` (blocking when the buffer is full), `wg.Add(1)`,
spawn a worker goroutine; each worker receives from `sem` when (if ever) its
`executeTask` returns. The single `main` goroutine is the only spawner. -/

/-- Pool state: tokens currently in the `sem` channel buffer, live worker
goroutines, and whether the `main` loop is blocked in `sem <- struct{}{}`
waiting for buffer space. -/
structure PoolState where
  semCount : Nat
  workers : Nat
  spawnerBlocked : Bool
deriving DecidableEq, Repr

/-- The number of spawns pending at a state: the single spawner is either
blocked on one send or not blocked at all. -/
def pendingSpawns (s : PoolState) : Nat :=
  if s.spawnerBlocked then 1 else 0

/-- Transitions of the pool: `spawn` is `main` completing `sem <- struct{}{}`
(possible only while the buffer has room) followed by starting a goroutine;
`blockSpawn` is `main` blocking on a full buffer; `release` is a worker
running its deferred `<-sem; wg.Done()` and terminating. -/
inductive PoolStep (cap : Nat) : PoolState → PoolState → Prop
  | spawn (s : PoolState) (h : s.semCount < cap) :
      PoolStep cap s ⟨s.semCount + 1, s.workers + 1, false⟩
  | blockSpawn (s : PoolState) (h : s.semCount = cap) :
      PoolStep cap s ⟨s.semCount, s.workers, true⟩
  | release (s : PoolState) (hw : 0 < s.workers) (hs : 0 < s.semCount) :
      PoolStep cap s ⟨s.semCount - 1, s.workers - 1, s.spawnerBlocked⟩

/-- States reachable from process start (empty buffer, no workers,
spawner running). -/
inductive PoolReachable (cap : Nat) : PoolState → Prop
  | init : PoolReachable cap ⟨0, 0, false⟩
  | step {s s' : PoolState} : PoolReachable cap s → PoolStep cap s s' →
      PoolReachable cap s'

/-! ## Mutex discipline around the Execution Log (profiler.go lines 144–152
and 229–231)

The atomic actions each code path performs on the shared log, read off the
source: a worker recording a sample locks `logMutex`, appends, unlocks
(lines 229–231); the signal-handler goroutine calls `saveLogs(logs)` with no
mutex operation at all (lines 147–152). -/

inductive LogAction where
  | lock
  | unlock
  | append
  | flush
deriving DecidableEq, Repr

/-- The log actions of the sample-recording section of `executeTask`
(profiler.go lines 229–231). -/
def workerRecordActions : List LogAction :=
  [LogAction.lock, LogAction.append, LogAction.unlock]

/-- The log actions of the shutdown goroutine (profiler.go lines 147–152):
it flushes via `saveLogs(logs)` and never touches `logMutex`. -/
def shutdownActions : List LogAction :=
  [LogAction.flush]

/-- `Interleaves xs ys zs`: `zs` is an interleaving of the action
sequences of the two threads `xs` and `ys`. -/
inductive Interleaves : List LogAction → List LogAction → List LogAction → Prop
  | nil : Interleaves [] [] []
  | left {x : LogAction} {xs ys zs : List LogAction} :
      Interleaves xs ys zs → Interleaves (x :: xs) ys (x :: zs)
  | right {y : LogAction} {xs ys zs : List LogAction} :
      Interleaves xs ys zs → Interleaves xs (y :: ys) (y :: zs)

/-- Scans a trace and reports whether a `flush` occurs while the worker
holds the mutex (i.e. strictly between a `lock` and its `unlock`). -/
def flushWhileLockedAux : Bool → List LogAction → Bool
  | _, [] => false
  | _, LogAction.lock :: rest => flushWhileLockedAux true rest
  | _, LogAction.unlock :: rest => flushWhileLockedAux false rest
  | held, LogAction.flush :: rest => held || flushWhileLockedAux held rest
  | held, LogAction.append :: rest => flushWhileLockedAux held rest

/-- Whether a trace contains a flush performed while the mutex is held by
the other thread. -/
def flushWhileLocked (tr : List LogAction) : Bool :=
  flushWhileLockedAux false tr

/-! ## Lemmas about the random identifier generator -/

theorem randomStringChars_eq_map (n : Nat) : ∀ r : Rng,
    randomStringChars n r =
      ((List.range n).map
        (fun i => charset.data.getD (r.oracle (r.idx + i) % charset.length) 'a'),
       ⟨r.oracle, r.idx + n⟩) := by
  induction n with
  | zero =>
    intro r
    simp [randomStringChars]
  | succ n ih =>
    intro r
    simp only [randomStringChars, randIntn]
    rw [ih]
    rw [List.range_succ_eq_map, List.map_cons, List.map_map]
    refine Prod.ext ?_ ?_
    · simp only
      congr 1
      refine List.map_congr_left ?_
      intro a _
      simp only [Function.comp_apply]
      have h : r.idx + 1 + a = r.idx + (a + 1) := by omega
      rw [h]
    · simp only
      congr 1
      omega

theorem randomString_data (n : Nat) (r : Rng) :
    (randomString n r).1.data =
      (List.range n).map
        (fun i => charset.data.getD (r.oracle (r.idx + i) % charset.length) 'a') := by
  simp [randomString, randomStringChars_eq_map]

theorem randomString_rng (n : Nat) (r : Rng) :
    (randomString n r).2 = ⟨r.oracle, r.idx + n⟩ := by
  simp [randomString, randomStringChars_eq_map]

theorem randomString_length (n : Nat) (r : Rng) :
    (randomString n r).1.length = n := by
  show (randomString n r).1.data.length = n
  rw [randomString_data]
  simp

theorem randomString_ne_empty (n : Nat) (hn : 0 < n) (r : Rng) :
    (randomString n r).1 ≠ "" := by
  intro h
  have : (randomString n r).1.length = 0 := by rw [h]; rfl
  rw [randomString_length] at this
  omega

theorem charset_getD_range (k : Nat) :
    'a' ≤ charset.data.getD k 'a' ∧ charset.data.getD k 'a' ≤ 'z' := by
  by_cases h : k < 26
  · revert h
    revert k
    decide
  · rw [List.getD_eq_default]
    · exact ⟨le_refl _, by decide⟩
    · have : charset.data.length = 26 := by decide
      omega

theorem charset_getD_inj (a b : Nat) (ha : a < 26) (hb : b < 26) (hne : a ≠ b) :
    charset.data.getD a 'a' ≠ charset.data.getD b 'a' := by
  have h : ∀ a : Nat, a < 26 → ∀ b : Nat, b < 26 → a ≠ b →
      charset.data.getD a 'a' ≠ charset.data.getD b 'a' := by decide
  exact h a ha b hb hne

/-- Two generated identifiers of the same length differ as soon as one of
the underlying reduced draws differs. -/
theorem randomString_ne_of_draw_ne (n j : Nat) (r1 r2 : Rng) (hj : j < n)
    (hne : r1.oracle (r1.idx + j) % charset.length ≠ r2.oracle (r2.idx + j) % charset.length) :
    (randomString n r1).1 ≠ (randomString n r2).1 := by
  intro h
  have hd : (randomString n r1).1.data = (randomString n r2).1.data := by rw [h]
  rw [randomString_data, randomString_data] at hd
  have h1 := congrArg (fun l => l.get? j) hd
  simp only [List.get?_map] at h1
  rw [List.get?_range hj] at h1
  simp only [Option.map_some'] at h1
  have hlen : charset.length = 26 := by decide
  have hc := charset_getD_inj (r1.oracle (r1.idx + j) % charset.length)
    (r2.oracle (r2.idx + j) % charset.length)
    (by rw [hlen]; exact Nat.mod_lt _ (by omega))
    (by rw [hlen]; exact Nat.mod_lt _ (by omega)) hne
  exact hc (Option.some.injEq _ _ ▸ h1)

/-! ## Lemmas about the throttle -/

theorem throttleCheck_reset (Q : Nat) (s : ThrottleState) (now : Nat)
    (h : oneSecond ≤ now - s.lastQueryTime) (hQ : 0 < Q) :
    throttleCheck Q s now = ThrottleOutcome.proceed ⟨1, now⟩ := by
  have h2 : ¬ (Q ≤ (0 : Nat)) := by omega
  simp [throttleCheck, h, h2]

theorem throttleCheck_resetWait (Q : Nat) (s : ThrottleState) (now : Nat)
    (h : oneSecond ≤ now - s.lastQueryTime) (hQ : Q = 0) :
    throttleCheck Q s now = ThrottleOutcome.wait ⟨0, now⟩ (now + oneSecond) := by
  have h2 : Q ≤ (0 : Nat) := by omega
  simp [throttleCheck, h, h2]

theorem throttleCheck_defer (Q : Nat) (s : ThrottleState) (now : Nat)
    (h : now - s.lastQueryTime < oneSecond) (hc : Q ≤ s.queryCount) :
    throttleCheck Q s now = ThrottleOutcome.wait s (s.lastQueryTime + oneSecond) := by
  have h1 : ¬ (oneSecond ≤ now - s.lastQueryTime) := by omega
  simp [throttleCheck, h1, hc]

theorem throttleCheck_allow (Q : Nat) (s : ThrottleState) (now : Nat)
    (h : now - s.lastQueryTime < oneSecond) (hc : s.queryCount < Q) :
    throttleCheck Q s now = ThrottleOutcome.proceed ⟨s.queryCount + 1, s.lastQueryTime⟩ := by
  have h1 : ¬ (oneSecond ≤ now - s.lastQueryTime) := by omega
  have h2 : ¬ (Q ≤ s.queryCount) := by omega
  simp [throttleCheck, h1, h2]

theorem countWindow_cons (w : Nat) (p : Nat × Nat) (ops : List (Nat × Nat)) :
    countWindow w (p :: ops) =
      countWindow w ops + (if p.2 = w then 1 else 0) := by
  simp [countWindow, List.filter_cons]
  by_cases h : p.2 = w <;> simp [h]

/-- A helper collecting what a chain on `a :: now :: rest` yields. -/
theorem chain_shift {a now : Nat} {rest : List Nat}
    (h : List.Chain' (· ≤ ·) (a :: now :: rest)) :
    a ≤ now ∧ List.Chain' (· ≤ ·) (now :: rest) ∧ List.Chain' (· ≤ ·) (a :: rest) := by
  rcases List.chain'_cons.mp h with ⟨h1, h2⟩
  refine ⟨h1, h2, ?_⟩
  cases rest with
  | nil => simp
  | cons b l =>
    rcases List.chain'_cons.mp h2 with ⟨h3, h4⟩
    exact List.chain'_cons.mpr ⟨le_trans h1 h3, h4⟩

/-- Main throttle induction: relative to the current window `w`, ops recorded
by the rest of the run are none when `w` is already past, at most the
remaining budget `Q - queryCount` when `w` is the current window, and at
most `Q` when `w` lies in the future. -/
theorem runThrottle_count_aux (Q : Nat) (ts : List Nat) :
    ∀ (s : ThrottleState) (w : Nat),
      List.Chain' (· ≤ ·) (s.lastQueryTime :: ts) →
      (w < s.lastQueryTime → countWindow w (runThrottle Q s ts) = 0) ∧
      (w = s.lastQueryTime → countWindow w (runThrottle Q s ts) ≤ Q - s.queryCount) ∧
      (s.lastQueryTime < w → countWindow w (runThrottle Q s ts) ≤ Q) := by
  induction ts with
  | nil =>
    intro s w _
    simp [runThrottle, countWindow]
  | cons now rest ih =>
    intro s w hchain
    obtain ⟨hle, hchain1, hchain2⟩ := chain_shift hchain
    by_cases hr : oneSecond ≤ now - s.lastQueryTime
    · -- window elapsed: reset to ⟨0, now⟩
      have hnow : s.lastQueryTime < now := by
        have h1 : 0 < oneSecond := by decide
        omega
      by_cases hQ : 0 < Q
      · -- reset then proceed as the first op of the new window
        have hstep := throttleCheck_reset Q s now hr hQ
        have hrun : runThrottle Q s (now :: rest) =
            (now, now) :: runThrottle Q ⟨1, now⟩ rest := by
          simp [runThrottle, hstep]
        have ihh := ih ⟨1, now⟩ w (by simpa using hchain1)
        refine ⟨?_, ?_, ?_⟩
        · intro hw
          rw [hrun, countWindow_cons]
          have h0 := ihh.1 (by simpa using lt_trans hw hnow)
          simp only at h0 ⊢
          rw [if_neg (by omega)]
          omega
        · intro hw
          rw [hrun, countWindow_cons]
          have h0 := ihh.1 (by simp; omega)
          simp only at h0 ⊢
          rw [if_neg (by omega)]
          omega
        · intro hw
          rw [hrun, countWindow_cons]
          rcases lt_trichotomy w now with hc | hc | hc
          · have h0 := ihh.1 (by simpa using hc)
            simp only at h0 ⊢
            rw [if_neg (by omega)]
            omega
          · have h0 := ihh.2.1 (by simp [hc])
            simp only at h0 ⊢
            rw [if_pos (by omega)]
            omega
          · have h0 := ihh.2.2 (by simpa using hc)
            simp only at h0 ⊢
            rw [if_neg (by omega)]
            omega
      · -- Q = 0: reset then wait, no op
        have hQ0 : Q = 0 := by omega
        have hstep := throttleCheck_resetWait Q s now hr hQ0
        have hrun : runThrottle Q s (now :: rest) = runThrottle Q ⟨0, now⟩ rest := by
          simp [runThrottle, hstep]
        have ihh := ih ⟨0, now⟩ w (by simpa using hchain1)
        refine ⟨?_, ?_, ?_⟩
        · intro hw
          rw [hrun]
          exact ihh.1 (by simpa using lt_trans hw hnow)
        · intro hw
          rw [hrun]
          have h0 := ihh.1 (by simp; omega)
          omega
        · intro hw
          rw [hrun]
          rcases lt_trichotomy w now with hc | hc | hc
          · have h0 := ihh.1 (by simpa using hc)
            omega
          · have h0 := ihh.2.1 (by simp [hc])
            simp only at h0
            omega
          · exact ihh.2.2 (by simpa using hc)
    · -- still inside the window
      have hr' : now - s.lastQueryTime < oneSecond := by omega
      by_cases hc : Q ≤ s.queryCount
      · -- window budget exhausted: wait, no op
        have hstep := throttleCheck_defer Q s now hr' hc
        have hrun : runThrottle Q s (now :: rest) = runThrottle Q s rest := by
          simp [runThrottle, hstep]
        have ihh := ih s w hchain2
        refine ⟨?_, ?_, ?_⟩
        · intro hw
          rw [hrun]
          exact ihh.1 hw
        · intro hw
          rw [hrun]
          exact ihh.2.1 hw
        · intro hw
          rw [hrun]
          exact ihh.2.2 hw
      · -- op admitted in the current window
        have hcQ : s.queryCount < Q := by omega
        have hstep := throttleCheck_allow Q s now hr' hcQ
        have hrun : runThrottle Q s (now :: rest) =
            (now, s.lastQueryTime) ::
              runThrottle Q ⟨s.queryCount + 1, s.lastQueryTime⟩ rest := by
          simp [runThrottle, hstep]
        have ihh := ih ⟨s.queryCount + 1, s.lastQueryTime⟩ w (by simpa using hchain2)
        refine ⟨?_, ?_, ?_⟩
        · intro hw
          rw [hrun, countWindow_cons]
          have h0 := ihh.1 (by simpa using hw)
          simp only at h0 ⊢
          rw [if_neg (by omega)]
          omega
        · intro hw
          rw [hrun, countWindow_cons]
          have h0 := ihh.2.1 (by simpa using hw)
          simp only at h0 ⊢
          rw [if_pos (by omega)]
          omega
        · intro hw
          rw [hrun, countWindow_cons]
          have h0 := ihh.2.2 (by simpa using hw)
          simp only at h0 ⊢
          rw [if_neg (by omega)]
          omega

/-- Every admitted operation is initiated inside its own throttle window. -/
theorem runThrottle_mem_window (Q : Nat) (ts : List Nat) :
    ∀ (s : ThrottleState),
      List.Chain' (· ≤ ·) (s.lastQueryTime :: ts) →
      ∀ p ∈ runThrottle Q s ts, p.2 ≤ p.1 ∧ p.1 < p.2 + oneSecond := by
  induction ts with
  | nil =>
    intro s _ p hp
    simp [runThrottle] at hp
  | cons now rest ih =>
    intro s hchain p hp
    obtain ⟨hle, hchain1, hchain2⟩ := chain_shift hchain
    by_cases hr : oneSecond ≤ now - s.lastQueryTime
    · by_cases hQ : 0 < Q
      · have hrun : runThrottle Q s (now :: rest) =
            (now, now) :: runThrottle Q ⟨1, now⟩ rest := by
          simp [runThrottle, throttleCheck_reset Q s now hr hQ]
        rw [hrun] at hp
        rcases List.mem_cons.mp hp with h | h
        · subst h
          constructor
          · exact le_refl _
          · have h1 : 0 < oneSecond := by decide
            omega
        · exact ih ⟨1, now⟩ (by simpa using hchain1) p h
      · have hQ0 : Q = 0 := by omega
        have hrun : runThrottle Q s (now :: rest) = runThrottle Q ⟨0, now⟩ rest := by
          simp [runThrottle, throttleCheck_resetWait Q s now hr hQ0]
        rw [hrun] at hp
        exact ih ⟨0, now⟩ (by simpa using hchain1) p hp
    · have hr' : now - s.lastQueryTime < oneSecond := by omega
      by_cases hc : Q ≤ s.queryCount
      · have hrun : runThrottle Q s (now :: rest) = runThrottle Q s rest := by
          simp [runThrottle, throttleCheck_defer Q s now hr' hc]
        rw [hrun] at hp
        exact ih s hchain2 p hp
      · have hrun : runThrottle Q s (now :: rest) =
            (now, s.lastQueryTime) ::
              runThrottle Q ⟨s.queryCount + 1, s.lastQueryTime⟩ rest := by
          simp [runThrottle, throttleCheck_allow Q s now hr' (by omega)]
        rw [hrun] at hp
        rcases List.mem_cons.mp hp with h | h
        · subst h
          exact ⟨hle, by omega⟩
        · exact ih ⟨s.queryCount + 1, s.lastQueryTime⟩ (by simpa using hchain2) p h

/-! ## Lemmas about the worker pool -/

theorem pool_invariant (cap : Nat) (s : PoolState) (h : PoolReachable cap s) :
    s.workers ≤ s.semCount ∧ s.semCount ≤ cap := by
  induction h with
  | init => exact ⟨le_refl _, Nat.zero_le _⟩
  | step _ hstep ih =>
    cases hstep with
    | spawn h =>
      refine ⟨?_, ?_⟩
      · show _ + 1 ≤ _ + 1
        omega
      · show _ + 1 ≤ cap
        omega
    | blockSpawn h => exact ih
    | release hw hs =>
      refine ⟨?_, ?_⟩
      · show _ - 1 ≤ _ - 1
        omega
      · show _ - 1 ≤ cap
        omega

/-! ## Helper lemmas for persistence -/

theorem append_newline_ne_empty (s : String) : s ++ "\n" ≠ "" := by
  intro h
  have h1 := congrArg String.length h
  rw [String.length_append] at h1
  have h2 : ("\n" : String).length = 1 := rfl
  have h3 : ("" : String).length = 0 := rfl
  omega

theorem keptRecords_ok (recs : List (List String)) : ∀ i, keptRecords ioOk i recs = recs := by
  induction recs with
  | nil => intro i; rfl
  | cons r rest ih =>
    intro i
    have hf : ioOk.writeFails i = false := rfl
    simp [keptRecords, hf, ih]

theorem applyFlushes_append (fs : List (IoOracle × List ExecutionLog))
    (f : IoOracle × List ExecutionLog) :
    ∀ store, applyFlushes store (fs ++ [f]) = applyFlush (applyFlushes store fs) f.1 f.2 := by
  induction fs with
  | nil => intro store; rfl
  | cons g rest ih =>
    intro store
    simp only [List.cons_append, applyFlushes]
    exact ih _

/-- An error-injection oracle whose second underlying write (the first data
row) fails. -/
def badWriteOracle : IoOracle :=
  { createFails := false, writeFails := fun i => i == 1 }

/-! ## Claim theorems -/

/-- C1: for a worker with rate cap `Q ≥ 1`, at most `Q` operations are
initiated with any given throttle-window start, every initiated operation
falls inside its window `[windowStart, windowStart + 1s)`; an attempt with
the window budget exhausted is deferred by sleeping until
`windowStart + 1s`, an attempt within budget proceeds and increments the
count, and once a second has elapsed the count resets to 0 and the window
start moves to the current time. -/
theorem C1_rate_cap (Q t0 : Nat) (ts : List Nat) (hQ : 1 ≤ Q)
    (hchain : List.Chain' (· ≤ ·) (t0 :: ts)) :
    (∀ w, countWindow w (runThrottle Q ⟨0, t0⟩ ts) ≤ Q) ∧
    (∀ p ∈ runThrottle Q ⟨0, t0⟩ ts, p.2 ≤ p.1 ∧ p.1 < p.2 + oneSecond) ∧
    (∀ (s : ThrottleState) (now : Nat), s.queryCount < Q → now - s.lastQueryTime < oneSecond →
      throttleCheck Q s now = ThrottleOutcome.proceed ⟨s.queryCount + 1, s.lastQueryTime⟩) ∧
    (∀ (s : ThrottleState) (now : Nat), Q ≤ s.queryCount → now - s.lastQueryTime < oneSecond →
      throttleCheck Q s now = ThrottleOutcome.wait s (s.lastQueryTime + oneSecond)) ∧
    (∀ (s : ThrottleState) (now : Nat), oneSecond ≤ now - s.lastQueryTime →
      throttleCheck Q s now = ThrottleOutcome.proceed ⟨1, now⟩) := by
  refine ⟨?_, ?_, ?_, ?_, ?_⟩
  · intro w
    have h := runThrottle_count_aux Q ts ⟨0, t0⟩ w hchain
    rcases lt_trichotomy w t0 with hc | hc | hc
    · have h0 := h.1 hc
      omega
    · have h0 := h.2.1 hc
      simpa using h0
    · exact h.2.2 hc
  · exact runThrottle_mem_window Q ts ⟨0, t0⟩ hchain
  · intro s now h1 h2
    exact throttleCheck_allow Q s now h2 h1
  · intro s now h1 h2
    exact throttleCheck_defer Q s now h2 h1
  · intro s now h1
    exact throttleCheck_reset Q s now h1 (by omega)

/-- Witness for C1 at a concrete trace: cap 1, three loop-head instants. -/
theorem C1_rate_cap_witness :
    (1 ≤ 1 ∧ List.Chain' (· ≤ ·) (0 :: [0, 0, oneSecond])) ∧
    countWindow 0 (runThrottle 1 ⟨0, 0⟩ [0, 0, oneSecond]) ≤ 1 ∧
    throttleCheck 1 ⟨1, 0⟩ 5 = ThrottleOutcome.wait ⟨1, 0⟩ (0 + oneSecond) := by
  have h := C1_rate_cap 1 0 [0, 0, oneSecond] (by decide) (by simp [List.chain'_cons])
  exact ⟨⟨by decide, by simp [List.chain'_cons]⟩, h.1 0,
    h.2.2.2.1 ⟨1, 0⟩ 5 (by decide) (by decide)⟩

/-- C2 (refutation): the shutdown goroutine flushes the log without any
operation on `logMutex`, while the append path of the worker locks it; there is
an interleaving in which the flush runs while a worker holds the mutex
mid-append. -/
theorem C2_shutdown_flush_unserialized :
    LogAction.lock ∉ shutdownActions ∧
    LogAction.lock ∈ workerRecordActions ∧
    ∃ tr, Interleaves workerRecordActions shutdownActions tr ∧
      flushWhileLocked tr = true := by
  refine ⟨by decide, by decide,
    ⟨[LogAction.lock, LogAction.flush, LogAction.append, LogAction.unlock], ?_, by decide⟩⟩
  exact Interleaves.left (Interleaves.right (Interleaves.left (Interleaves.left Interleaves.nil)))

/-- C5: in every reachable pool state the number of live worker loops is at
most the channel capacity `maxThreads`, and the single spawner contributes a
backlog of at most one pending spawn. -/
theorem C5_pool_bounded (cap : Nat) (s : PoolState) (h : PoolReachable cap s) :
    s.workers ≤ cap ∧ pendingSpawns s ≤ 1 := by
  have hinv := pool_invariant cap s h
  refine ⟨le_trans hinv.1 hinv.2, ?_⟩
  unfold pendingSpawns
  split <;> omega

/-- Witness for C5 at a concrete reachable state. -/
theorem C5_pool_bounded_witness :
    PoolReachable 2 ⟨1, 1, false⟩ ∧
    (⟨1, 1, false⟩ : PoolState).workers ≤ 2 ∧ pendingSpawns ⟨1, 1, false⟩ ≤ 1 := by
  have hr : PoolReachable 2 ⟨1, 1, false⟩ :=
    PoolReachable.step PoolReachable.init (PoolStep.spawn ⟨0, 0, false⟩ (by decide))
  exact ⟨hr, C5_pool_bounded 2 ⟨1, 1, false⟩ hr⟩

/-- C7 (amended): `saveLogs` always returns normally; a failure to create
the file is reported with `"Failed to create CSV file:"` and aborts the
flush before any write; when creation succeeds no diagnostic is printed at
all, in particular write errors go unreported. -/
theorem C7_persistence_errors (o : IoOracle) (logs : List ExecutionLog) :
    (saveLogs o logs).returned = true ∧
    (o.createFails = true →
      (saveLogs o logs).printed = ["Failed to create CSV file:"] ∧
      (saveLogs o logs).file = none ∧ (saveLogs o logs).attempted = []) ∧
    (o.createFails = false → (saveLogs o logs).printed = []) := by
  cases hc : o.createFails with
  | false => simp [saveLogs, hc]
  | true => simp [saveLogs, hc]

/-- Witness for C7 at a concrete oracle and log. -/
theorem C7_persistence_errors_witness :
    ioOk.createFails = false ∧ (saveLogs ioOk [⟨0, 0⟩]).printed = [] := by
  exact ⟨rfl, (C7_persistence_errors ioOk [⟨0, 0⟩]).2.2 rfl⟩

/-- C7 (counterexample): with a run in which the write of the first data row
fails, a persistence error occurs (the row never reaches the file) yet the
diagnostics are empty — the write error is not reported anywhere. -/
theorem C7_counterexample :
    badWriteOracle.writeFails 1 = true ∧
    (saveLogs badWriteOracle [⟨0, 0⟩]).attempted.length = 2 ∧
    (saveLogs badWriteOracle [⟨0, 0⟩]).file = some [["Timestamp", "ResponseTime"]] ∧
    (saveLogs badWriteOracle [⟨0, 0⟩]).printed = [] := by
  refine ⟨rfl, ?_, ?_, rfl⟩
  · simp [saveLogs, badWriteOracle]
  · simp [saveLogs, badWriteOracle, keptRecords]

/-- C8: the stdin data handed to every spawned command is the secret
followed by a newline when the secret is non-empty, and a lone newline when
it is empty; in both cases it is newline-terminated and non-empty. -/
theorem C8_stdin_delivery (command password : String) :
    (executeCommand command password).stdinData =
      (if password = "" then "\n" else password ++ "\n") ∧
    (∃ pre, (executeCommand command password).stdinData = pre ++ "\n") ∧
    (executeCommand command password).stdinData ≠ "" := by
  by_cases h : password = ""
  · subst h
    refine ⟨by simp [executeCommand], ⟨"", by simp [executeCommand]⟩, ?_⟩
    have h1 : (executeCommand command "").stdinData = "\n" := by simp [executeCommand]
    rw [h1]
    decide
  · refine ⟨by simp [executeCommand, h], ⟨password, by simp [executeCommand, h]⟩, ?_⟩
    have h1 : (executeCommand command password).stdinData = password ++ "\n" := by
      simp [executeCommand, h]
    rw [h1]
    exact append_newline_ne_empty password

/-- Witness for C8 at concrete secrets. -/
theorem C8_stdin_delivery_witness :
    (executeCommand "gnokey" "secret").stdinData = "secret\n" ∧
    (executeCommand "gnokey" "").stdinData = "\n" := by
  refine ⟨?_, ?_⟩
  · rw [(C8_stdin_delivery "gnokey" "secret").1]
    decide
  · rw [(C8_stdin_delivery "gnokey" "").1]
    decide

/-- C9: `randomString n` yields a string of exactly `n` characters, all in
the lowercase range `a`–`z`; `MaxPackageLength = 20`, and the identifier
auto-generated for a composite cycle is `randomString MaxPackageLength`,
hence 20 characters long. -/
theorem C9_randomString (n : Nat) (r : Rng) (fn rem key dir chain : String)
    (lat : String → Nat) (now : Nat) :
    (randomString n r).1.length = n ∧
    (∀ c ∈ (randomString n r).1.data, 'a' ≤ c ∧ c ≤ 'z') ∧
    MaxPackageLength = 20 ∧
    (executeTaskCycle "addpkg+call" "" fn rem key dir chain r lat now).name =
      (randomString MaxPackageLength r).1 ∧
    ((executeTaskCycle "addpkg+call" "" fn rem key dir chain r lat now).name).length = 20 := by
  have hname : (executeTaskCycle "addpkg+call" "" fn rem key dir chain r lat now).name =
      (randomString MaxPackageLength r).1 := rfl
  refine ⟨randomString_length n r, ?_, rfl, hname, ?_⟩
  · intro c hc
    rw [randomString_data] at hc
    rcases List.mem_map.mp hc with ⟨i, _, hi⟩
    rw [← hi]
    exact charset_getD_range _
  · rw [hname]
    exact randomString_length MaxPackageLength r

/-- Witness for C9 at a concrete length and oracle. -/
theorem C9_randomString_witness :
    (randomString 3 ⟨fun k => k, 0⟩).1.length = 3 ∧
    (∀ c ∈ (randomString 3 ⟨fun k => k, 0⟩).1.data, 'a' ≤ c ∧ c ≤ 'z') := by
  have h := C9_randomString 3 ⟨fun k => k, 0⟩ "" "" "" "" "" (fun _ => 0) 0
  exact ⟨h.1, h.2.1⟩

/-! ## Shape of one composite cycle -/

/-- With a non-empty package name, a composite `addpkg+call` cycle runs the
`addpkg` command, then the `call` command with the same name, measures the
duration across both, appends one sample, and clears the package name. -/
theorem executeTaskCycle_composite_pinned (name fn rem key dir chain : String)
    (hname : name ≠ "") (r : Rng) (lat : String → Nat) (now : Nat) :
    executeTaskCycle "addpkg+call" name fn rem key dir chain r lat now =
      { name := name
        cmd1 := Except.ok (addpkgCmdStr name dir chain rem key)
        cmd2 := some (Except.ok
          (callCmdStr name (if fn = "" then "Main" else fn) chain rem key))
        sample :=
          ⟨now + lat (addpkgCmdStr name dir chain rem key) +
              lat (callCmdStr name (if fn = "" then "Main" else fn) chain rem key),
            now + lat (addpkgCmdStr name dir chain rem key) +
              lat (callCmdStr name (if fn = "" then "Main" else fn) chain rem key) - now⟩
        nextPackageName := ""
        rng := r
        endTime := now + lat (addpkgCmdStr name dir chain rem key) +
          lat (callCmdStr name (if fn = "" then "Main" else fn) chain rem key) } := by
  simp [executeTaskCycle, generateCommand, hname, Except.toOption]

/-- With an empty package name, a composite cycle first draws a fresh
20-character name and then proceeds exactly as a pinned cycle with that
name and the advanced random source. -/
theorem executeTaskCycle_composite_auto (fn rem key dir chain : String)
    (r : Rng) (lat : String → Nat) (now : Nat) :
    executeTaskCycle "addpkg+call" "" fn rem key dir chain r lat now =
      executeTaskCycle "addpkg+call" (randomString MaxPackageLength r).1 fn rem key dir chain
        (randomString MaxPackageLength r).2 lat now := by
  have hne := randomString_ne_empty MaxPackageLength (by decide) r
  simp [executeTaskCycle, hne]

/-- C6: the persister always targets the fixed file name `pc_profiler.csv`;
an error-free flush stores the header record followed by exactly one record
per sample in log order (the `i`-th data record is the RFC 3339 timestamp
and decimal seconds of the `i`-th sample); a later flush overwrites the
whole file, and no other file name is touched. -/
theorem C6_csv_layout (logs : List ExecutionLog)
    (store : String → Option (List (List String)))
    (fs : List (IoOracle × List ExecutionLog)) :
    csvFile = "pc_profiler.csv" ∧
    (saveLogs ioOk logs).file =
      some (["Timestamp", "ResponseTime"] :: logs.map sampleRecord) ∧
    (logs.map sampleRecord).length = logs.length ∧
    (∀ i, i < logs.length →
      (logs.map sampleRecord).getD i [] =
        [rfc3339 (logs.getD i ⟨0, 0⟩).Timestamp,
         fmtSeconds (logs.getD i ⟨0, 0⟩).ResponseTime]) ∧
    applyFlushes store (fs ++ [(ioOk, logs)]) csvFile =
      some (["Timestamp", "ResponseTime"] :: logs.map sampleRecord) ∧
    (∀ name, name ≠ csvFile → applyFlush store ioOk logs name = store name) := by
  have hfile : (saveLogs ioOk logs).file =
      some (["Timestamp", "ResponseTime"] :: logs.map sampleRecord) := by
    have hc : ioOk.createFails = false := rfl
    simp [saveLogs, hc, keptRecords_ok]
  refine ⟨rfl, hfile, by simp, ?_, ?_, ?_⟩
  · intro i hi
    rw [List.getD_eq_get?, List.getD_eq_get?, List.get?_map, List.get?_eq_get hi]
    simp [sampleRecord]
  · rw [applyFlushes_append]
    unfold applyFlush
    simp [hfile]
  · intro name hname
    unfold applyFlush
    simp [hname]

/-- Witness for C6 at a single concrete sample (1.5 s at the epoch). -/
theorem C6_csv_layout_witness :
    (saveLogs ioOk [⟨0, 1500000000⟩]).file =
      some [["Timestamp", "ResponseTime"], ["1970-01-01T00:00:00Z", "1.500000"]] ∧
    ([(⟨0, 1500000000⟩ : ExecutionLog)].map sampleRecord).getD 0 [] =
      [rfc3339 ([(⟨0, 1500000000⟩ : ExecutionLog)].getD 0 ⟨0, 0⟩).Timestamp,
       fmtSeconds ([(⟨0, 1500000000⟩ : ExecutionLog)].getD 0 ⟨0, 0⟩).ResponseTime] := by
  have h := C6_csv_layout [⟨0, 1500000000⟩] (fun _ => none) []
  refine ⟨?_, h.2.2.2.1 0 (by decide)⟩
  rw [h.2.1]
  decide

/-- C3: within one composite cycle the `call` leg is generated with exactly
the package name used by the `addpkg` leg; a configured name is used as-is
(no random draw), an empty one is generated exactly once (the random source
advances by exactly `MaxPackageLength` draws for the whole cycle). -/
theorem C3_composite_shares_name (pn fn rem key dir chain : String) (r : Rng)
    (lat : String → Nat) (now : Nat) :
    (executeTaskCycle "addpkg+call" pn fn rem key dir chain r lat now).cmd1 =
      Except.ok (addpkgCmdStr
        (executeTaskCycle "addpkg+call" pn fn rem key dir chain r lat now).name
        dir chain rem key) ∧
    (executeTaskCycle "addpkg+call" pn fn rem key dir chain r lat now).cmd2 =
      some (Except.ok (callCmdStr
        (executeTaskCycle "addpkg+call" pn fn rem key dir chain r lat now).name
        (if fn = "" then "Main" else fn) chain rem key)) ∧
    (pn ≠ "" →
      (executeTaskCycle "addpkg+call" pn fn rem key dir chain r lat now).name = pn ∧
      (executeTaskCycle "addpkg+call" pn fn rem key dir chain r lat now).rng.idx = r.idx) ∧
    (pn = "" →
      (executeTaskCycle "addpkg+call" pn fn rem key dir chain r lat now).name =
        (randomString MaxPackageLength r).1 ∧
      (executeTaskCycle "addpkg+call" pn fn rem key dir chain r lat now).rng.idx =
        r.idx + MaxPackageLength) := by
  by_cases hpn : pn = ""
  · subst hpn
    have hne := randomString_ne_empty MaxPackageLength (by decide) r
    rw [executeTaskCycle_composite_auto,
      executeTaskCycle_composite_pinned _ fn rem key dir chain hne _ lat now]
    refine ⟨rfl, rfl, fun h => absurd rfl h, fun _ => ⟨rfl, ?_⟩⟩
    rw [randomString_rng]
  · rw [executeTaskCycle_composite_pinned pn fn rem key dir chain hpn r lat now]
    exact ⟨rfl, rfl, fun _ => ⟨rfl, rfl⟩, fun h => absurd h hpn⟩

/-- Witness for C3: one pinned and one auto-generated concrete cycle. -/
theorem C3_composite_shares_name_witness :
    (executeTaskCycle "addpkg+call" "abc" "" "r" "k" "." "dev" ⟨fun _ => 0, 0⟩
        (fun _ => 0) 0).name = "abc" ∧
    (executeTaskCycle "addpkg+call" "" "" "r" "k" "." "dev" ⟨fun _ => 0, 0⟩
        (fun _ => 0) 0).rng.idx = 0 + MaxPackageLength := by
  refine ⟨((C3_composite_shares_name "abc" "" "r" "k" "." "dev" ⟨fun _ => 0, 0⟩
    (fun _ => 0) 0).2.2.1 (by decide)).1, ?_⟩
  exact ((C3_composite_shares_name "" "" "r" "k" "." "dev" ⟨fun _ => 0, 0⟩
    (fun _ => 0) 0).2.2.2 rfl).2

/-- The all-zero random oracle. -/
def constRng : Rng := { oracle := fun _ => 0, idx := 0 }

/-- C4 (counterexample): pinned package name `"mypkg"`, zero oracle. The
second cycle no longer uses the configured name, and the generated name of the third cycle
equals that of the second — falsifying both "the configured name
is used in every cycle" and "the next name always differs". -/
theorem C4_counterexample :
    (cycleNames "addpkg+call" "mypkg" "" "localhost:26657" "Dev" "." "dev" constRng
        (fun _ => 0) 0 3).getD 0 "" = "mypkg" ∧
    (cycleNames "addpkg+call" "mypkg" "" "localhost:26657" "Dev" "." "dev" constRng
        (fun _ => 0) 0 3).getD 1 "" ≠ "mypkg" ∧
    (cycleNames "addpkg+call" "mypkg" "" "localhost:26657" "Dev" "." "dev" constRng
        (fun _ => 0) 0 3).getD 2 "" =
      (cycleNames "addpkg+call" "mypkg" "" "localhost:26657" "Dev" "." "dev" constRng
        (fun _ => 0) 0 3).getD 1 "" := by
  decide

/-- C4 (amended): after every composite cycle the package name is cleared —
even a configured one is used only for the first cycle — so the next cycle
generates a fresh non-empty 20-character name from new random draws, which
differs from a previous generated name whenever some reduced draw differs. -/
theorem C4_fresh_name_each_cycle (pn fn rem key dir chain : String) (r r2 : Rng)
    (lat : String → Nat) (now t2 : Nat) :
    (executeTaskCycle "addpkg+call" pn fn rem key dir chain r lat now).nextPackageName = "" ∧
    (executeTaskCycle "addpkg+call" "" fn rem key dir chain r2 lat t2).name =
      (randomString MaxPackageLength r2).1 ∧
    (executeTaskCycle "addpkg+call" "" fn rem key dir chain r2 lat t2).name ≠ "" ∧
    ((executeTaskCycle "addpkg+call" "" fn rem key dir chain r2 lat t2).name).length =
      MaxPackageLength ∧
    (∀ j, j < MaxPackageLength →
      r2.oracle (r2.idx + j) % charset.length ≠ r.oracle (r.idx + j) % charset.length →
      (executeTaskCycle "addpkg+call" "" fn rem key dir chain r2 lat t2).name ≠
        (randomString MaxPackageLength r).1) := by
  have hname : (executeTaskCycle "addpkg+call" "" fn rem key dir chain r2 lat t2).name =
      (randomString MaxPackageLength r2).1 := rfl
  refine ⟨?_, hname, ?_, ?_, ?_⟩
  · by_cases hpn : pn = ""
    · subst hpn
      rw [executeTaskCycle_composite_auto,
        executeTaskCycle_composite_pinned _ fn rem key dir chain
          (randomString_ne_empty MaxPackageLength (by decide) r) _ lat now]
    · rw [executeTaskCycle_composite_pinned pn fn rem key dir chain hpn r lat now]
  · rw [hname]
    exact randomString_ne_empty MaxPackageLength (by decide) r2
  · rw [hname]
    exact randomString_length MaxPackageLength r2
  · intro j hj hne
    rw [hname]
    exact randomString_ne_of_draw_ne MaxPackageLength j r2 r hj hne

/-- Witness for C4 (amended) at concrete oracles whose first draws differ. -/
theorem C4_fresh_name_each_cycle_witness :
    (executeTaskCycle "addpkg+call" "mypkg" "" "r" "k" "." "dev" constRng
        (fun _ => 0) 0).nextPackageName = "" ∧
    (executeTaskCycle "addpkg+call" "" "" "r" "k" "." "dev" ⟨fun k => k + 1, 0⟩
        (fun _ => 0) 0).name ≠ (randomString MaxPackageLength constRng).1 := by
  have h := C4_fresh_name_each_cycle "mypkg" "" "r" "k" "." "dev" constRng
    ⟨fun k => k + 1, 0⟩ (fun _ => 0) 0 0
  exact ⟨h.1, h.2.2.2.2 0 (by decide) (by decide)⟩

/-- C10: a composite cycle appends exactly the one sample whose response
time is the sum of the latencies of both legs, measured from before the `addpkg`
leg to after the `call` leg. -/
theorem C10_composite_single_sample (pn fn rem key dir chain : String) (r : Rng)
    (lat : String → Nat) (now : Nat) :
    ∃ s1 s2 : String,
      (executeTaskCycle "addpkg+call" pn fn rem key dir chain r lat now).cmd1 =
        Except.ok s1 ∧
      (executeTaskCycle "addpkg+call" pn fn rem key dir chain r lat now).cmd2 =
        some (Except.ok s2) ∧
      (executeTaskCycle "addpkg+call" pn fn rem key dir chain r lat now).sample =
        ⟨now + lat s1 + lat s2, lat s1 + lat s2⟩ ∧
      (executeTaskCycle "addpkg+call" pn fn rem key dir chain r lat now).endTime =
        now + lat s1 + lat s2 := by
  by_cases hpn : pn = ""
  · subst hpn
    rw [executeTaskCycle_composite_auto,
      executeTaskCycle_composite_pinned _ fn rem key dir chain
        (randomString_ne_empty MaxPackageLength (by decide) r) _ lat now]
    refine ⟨_, _, rfl, rfl, ?_, rfl⟩
    have harith : ∀ a b c : Nat, a + b + c - a = b + c := by
      intro a b c
      omega
    rw [harith]
  · rw [executeTaskCycle_composite_pinned pn fn rem key dir chain hpn r lat now]
    refine ⟨_, _, rfl, rfl, ?_, rfl⟩
    have harith : ∀ a b c : Nat, a + b + c - a = b + c := by
      intro a b c
      omega
    rw [harith]

/-- Witness for C10 at a concrete cycle with distinct leg latencies. -/
theorem C10_composite_single_sample_witness :
    ∃ s1 s2 : String,
      (executeTaskCycle "addpkg+call" "abc" "" "r" "k" "." "dev" constRng
          String.length 7).cmd1 = Except.ok s1 ∧
      (executeTaskCycle "addpkg+call" "abc" "" "r" "k" "." "dev" constRng
          String.length 7).cmd2 = some (Except.ok s2) ∧
      (executeTaskCycle "addpkg+call" "abc" "" "r" "k" "." "dev" constRng
          String.length 7).sample =
        ⟨7 + String.length s1 + String.length s2, String.length s1 + String.length s2⟩ ∧
      (executeTaskCycle "addpkg+call" "abc" "" "r" "k" "." "dev" constRng
          String.length 7).endTime = 7 + String.length s1 + String.length s2 :=
  C10_composite_single_sample "abc" "" "r" "k" "." "dev" constRng String.length 7

end RealmProfiler
